import Mathlib

/-!
Shallow embedding of `github-tree-print` (src/main.rs), a CLI that parses an
"owner/repo" identifier, resolves the repository's default branch over the
GitHub REST API, fetches the branch's recursive git tree, renders the tree as
one "KIND path" line per entry, and writes the result to a file or to
standard output.

Pure helpers (`parse_repo_name`, `format_tree`) are translated directly.
The effectful `main` is embedded as `runMain`, a function from the parsed
arguments, the `GITHUB_TOKEN` environment value and an oracle giving the two
HTTP response bodies, to the list of observable events (network requests and
writes) together with the run's outcome.  JSON decoding of the two responses
is embedded by explicit decoders for the two `serde`-annotated structs
`RepoInfo` and `GitTreeResponse` over a small JSON value type.
-/

/-! ## Input parsing (src/main.rs lines 79-86) -/

/-- Splitting a character list on a separator character, keeping empty
segments: the semantics of Rust's `str::split` with a `char` pattern, as used
by `parse_repo_name` (`repo_name.split('/')`). An input with no separator
yields one segment; each separator occurrence starts a new segment. -/
def splitChar (sep : Char) : List Char → List (List Char)
  | [] => [[]]
  | c :: rest =>
    if c = sep then
      [] :: splitChar sep rest
    else
      match splitChar sep rest with
      | [] => [[c]]
      | p :: ps => (c :: p) :: ps

/-- The Rust expression `repo_name.split('/').collect::<Vec<&str>>()` lifted
to Lean strings. -/
def splitOnChar (sep : Char) (s : String) : List String :=
  (splitChar sep s.data).map String.mk

/-- The error message of `parse_repo_name` (src/main.rs line 84). -/
def malformedIdentifierMsg : String :=
  "Repository name must be in the format 'username/repo'"

/-- Embedding of `parse_repo_name` (src/main.rs lines 79-86): collect the
parts of the split, succeed when there are exactly two, fail otherwise. -/
def parse_repo_name (repo_name : String) : Except String (String × String) :=
  match splitOnChar '/' repo_name with
  | [owner, repo] => Except.ok (owner, repo)
  | _ => Except.error malformedIdentifierMsg

/-! ## Data model (src/main.rs lines 89-113) -/

/-- Embedding of `struct RepoInfo` (src/main.rs lines 89-92). -/
structure RepoInfo where
  default_branch : Option String
deriving DecidableEq

/-- Embedding of `struct TreeEntry` (src/main.rs lines 104-113); the Rust
field `type` is renamed `type_field` exactly as in the source. -/
structure TreeEntry where
  path : String
  mode : String
  type_field : String
  sha : String
  size : Option Nat
  url : Option String
deriving DecidableEq

/-- Embedding of `struct GitTreeResponse` (src/main.rs lines 95-101). -/
structure GitTreeResponse where
  sha : String
  url : String
  truncated : Bool
  tree : List TreeEntry
deriving DecidableEq

/-! ## JSON decoding

The two response bodies are decoded by `serde` against the annotated structs
above.  The decoders below embed that behaviour over an explicit JSON value
type: every field of the struct whose type is `String`/`bool` requires a JSON
string/boolean under that key, a `Vec` field requires an array, and an
`Option` field accepts a missing key or `null` as `None` (serde's default
treatment of `Option` fields); any other shape is a decode failure. -/

/-- A JSON value. -/
inductive Json where
  | null
  | bool (b : Bool)
  | num (n : Int)
  | str (s : String)
  | arr (elements : List Json)
  | obj (fields : List (String × Json))

/-- A required string field: present and a JSON string, else failure. -/
def getStrField (fields : List (String × Json)) (k : String) : Option String :=
  match fields.lookup k with
  | some (Json.str s) => some s
  | _ => none

/-- A required boolean field: present and a JSON boolean, else failure. -/
def getBoolField (fields : List (String × Json)) (k : String) : Option Bool :=
  match fields.lookup k with
  | some (Json.bool b) => some b
  | _ => none

/-- A required array field: present and a JSON array, else failure. -/
def getArrField (fields : List (String × Json)) (k : String) : Option (List Json) :=
  match fields.lookup k with
  | some (Json.arr elements) => some elements
  | _ => none

/-- An `Option<u64>` field: missing or `null` is `none`; a non-negative
integer below `2 ^ 64` is accepted; anything else is a decode failure. -/
def getOptNatField (fields : List (String × Json)) (k : String) : Option (Option Nat) :=
  match fields.lookup k with
  | none => some none
  | some Json.null => some none
  | some (Json.num n) => if 0 ≤ n ∧ n < 2 ^ 64 then some (some n.toNat) else none
  | some _ => none

/-- An `Option<String>` field: missing or `null` is `none`; a string is
accepted; anything else is a decode failure. -/
def getOptStrField (fields : List (String × Json)) (k : String) : Option (Option String) :=
  match fields.lookup k with
  | none => some none
  | some Json.null => some none
  | some (Json.str s) => some (some s)
  | some _ => none

/-- Decoding a JSON value against `struct RepoInfo`: an object whose
`default_branch` is missing, `null`, or a string. -/
def decodeRepoInfo : Json → Option RepoInfo
  | Json.obj fields =>
    match fields.lookup "default_branch" with
    | none => some ⟨none⟩
    | some Json.null => some ⟨none⟩
    | some (Json.str s) => some ⟨some s⟩
    | some _ => none
  | _ => none

/-- Decoding a JSON value against `struct TreeEntry`: `path`, `mode`,
`type` and `sha` are required strings; `size` and `url` are optional. -/
def decodeTreeEntry : Json → Option TreeEntry
  | Json.obj fields =>
    (getStrField fields "path").bind fun path =>
    (getStrField fields "mode").bind fun mode =>
    (getStrField fields "type").bind fun type_field =>
    (getStrField fields "sha").bind fun sha =>
    (getOptNatField fields "size").bind fun size =>
    (getOptStrField fields "url").bind fun url =>
    some ⟨path, mode, type_field, sha, size, url⟩
  | _ => none

/-- Decoding a JSON value against `struct GitTreeResponse`: `sha` and `url`
are required strings, `truncated` a required boolean, and `tree` a required
array each of whose elements decodes as a `TreeEntry`. -/
def decodeGitTreeResponse : Json → Option GitTreeResponse
  | Json.obj fields =>
    (getStrField fields "sha").bind fun sha =>
    (getStrField fields "url").bind fun url =>
    (getBoolField fields "truncated").bind fun truncated =>
    (getArrField fields "tree").bind fun entries =>
    (entries.mapM decodeTreeEntry).bind fun tree =>
    some ⟨sha, url, truncated, tree⟩
  | _ => none

/-! ## Tree rendering (src/main.rs lines 115-127) -/

/-- The left-column token of an entry kind: the `match` on
`entry.type_field.as_str()` in `format_tree` (src/main.rs lines 119-123). -/
def kindToken : String → String
  | "tree" => "DIR"
  | "blob" => "FILE"
  | _ => "UNK"

/-- The line pushed for one entry (src/main.rs line 124):
`format!("\x7b:<\x7d \x7b\x7d\n", left, entry.path)`, where `:<` with no
minimum width adds no padding, so the line is the token, one space, the path,
and a newline. -/
def entryLine (entry : TreeEntry) : String :=
  kindToken entry.type_field ++ " " ++ entry.path ++ "\n"

/-- Embedding of `format_tree` (src/main.rs lines 115-127): start from the
empty string and push each entry's line in order. -/
def format_tree (tree : List TreeEntry) : String :=
  tree.foldl (fun output entry => output ++ entryLine entry) ""

/-- The concatenation, in order, of the lines of the given entries: the
specification-shaped description of the renderer, to be compared with
`format_tree`. -/
def concatLines : List TreeEntry → String
  | [] => ""
  | entry :: rest => entryLine entry ++ concatLines rest

/-- How many newline characters a string holds; each one terminates a line
of the rendered report. -/
def newlineCount (s : String) : Nat := s.data.count '\n'

/-! ## The run pipeline (src/main.rs lines 29-76)

`main` is embedded as a pure function of the parsed CLI arguments, the value
of `GITHUB_TOKEN` in the process environment (after `dotenv` has loaded any
`.env` file), and an oracle holding the bodies the two HTTP requests would
return (`none` standing for a transport-level failure).  It returns the list
of observable events in order — network requests and writes — paired with
the run's outcome. -/

/-- The CLI arguments (src/main.rs lines 10-27). -/
structure Args where
  repo_name : String
  token : Option String
  output_file : Option String
deriving DecidableEq

/-- The terminal error kinds of a run. -/
inductive RunError where
  | missingCredential (msg : String)
  | malformedIdentifier (msg : String)
  | requestFailed
  | decodeFailed
  | missingDefaultBranch (msg : String)
deriving DecidableEq

/-- An observable effect of the run, in order of occurrence. -/
inductive Event where
  | netRequest (url : String)
  | fileWrite (path : String) (text : String)
  | stdoutWrite (text : String)
deriving DecidableEq

/-- The two HTTP response bodies a run would receive; `none` models a
transport-level failure of that request. -/
structure NetworkOracle where
  repoInfoBody : Option Json
  treeBody : Option Json

/-- Credential resolution (src/main.rs lines 35-36):
`args.token.or_else(|| env::var("GITHUB_TOKEN").ok())`. -/
def resolveToken (flag envVar : Option String) : Option String :=
  flag.orElse fun _ => envVar

/-- The panic message of the `expect` on the missing token
(src/main.rs line 37). -/
def tokenExpectMsg : String :=
  "GitHub token not provided. Set it as an argument, in the GITHUB_TOKEN environment variable, or in a .env file as GITHUB_TOKEN"

/-- The error attached by `ok_or` to an absent default branch
(src/main.rs line 53). -/
def defaultBranchMsg : String := "Default branch not found"

/-- The repository-metadata endpoint (src/main.rs line 45). -/
def repoInfoUrl (owner repo : String) : String :=
  "https://api.github.com/repos/" ++ owner ++ "/" ++ repo

/-- The recursive-tree endpoint (src/main.rs lines 56-59). -/
def treeUrl (owner repo branch : String) : String :=
  "https://api.github.com/repos/" ++ owner ++ "/" ++ repo ++ "/git/trees/" ++ branch
    ++ "?recursive=1"

/-- Embedding of `main` (src/main.rs lines 29-76). Stages in source order:
resolve the token (`expect` aborts when neither source has one), parse the
identifier, request and decode the repository metadata, extract the default
branch, request and decode the recursive tree, render it, and write the text
to the output file when one was given (`write!`), else to standard output
(`println!`, which appends one newline of its own). -/
def runMain (args : Args) (githubTokenEnv : Option String) (oracle : NetworkOracle) :
    List Event × Except RunError Unit :=
  match resolveToken args.token githubTokenEnv with
  | none => ([], Except.error (RunError.missingCredential tokenExpectMsg))
  | some _github_token =>
    match parse_repo_name args.repo_name with
    | Except.error e => ([], Except.error (RunError.malformedIdentifier e))
    | Except.ok (owner, repo) =>
      match oracle.repoInfoBody with
      | none => ([Event.netRequest (repoInfoUrl owner repo)], Except.error RunError.requestFailed)
      | some body1 =>
        match decodeRepoInfo body1 with
        | none => ([Event.netRequest (repoInfoUrl owner repo)], Except.error RunError.decodeFailed)
        | some repo_info =>
          match repo_info.default_branch with
          | none =>
              ([Event.netRequest (repoInfoUrl owner repo)],
                Except.error (RunError.missingDefaultBranch defaultBranchMsg))
          | some default_branch =>
            match oracle.treeBody with
            | none =>
                ([Event.netRequest (repoInfoUrl owner repo),
                  Event.netRequest (treeUrl owner repo default_branch)],
                  Except.error RunError.requestFailed)
            | some body2 =>
              match decodeGitTreeResponse body2 with
              | none =>
                  ([Event.netRequest (repoInfoUrl owner repo),
                    Event.netRequest (treeUrl owner repo default_branch)],
                    Except.error RunError.decodeFailed)
              | some tree_response =>
                let tree_formatted := format_tree tree_response.tree
                match args.output_file with
                | some output_file =>
                    ([Event.netRequest (repoInfoUrl owner repo),
                      Event.netRequest (treeUrl owner repo default_branch),
                      Event.fileWrite output_file tree_formatted],
                      Except.ok ())
                | none =>
                    ([Event.netRequest (repoInfoUrl owner repo),
                      Event.netRequest (treeUrl owner repo default_branch),
                      Event.stdoutWrite (tree_formatted ++ "\n")],
                      Except.ok ())

/-- The texts a run writes, in order, to the file or to standard output. -/
def writtenTexts (events : List Event) : List String :=
  events.filterMap fun e =>
    match e with
    | Event.fileWrite _ text => some text
    | Event.stdoutWrite text => some text
    | _ => none

/-! ## Concrete sample data used by witnesses and counterexamples -/

/-- A metadata body whose default branch is the string "main". -/
def sampleRepoBody : Json := Json.obj [("default_branch", Json.str "main")]

/-- A metadata body whose default branch is `null` (spec scenario 3). -/
def nullBranchBody : Json := Json.obj [("default_branch", Json.null)]

/-- A tree body with a single blob entry `README.md` (spec scenario 1). -/
def sampleTreeBody : Json :=
  Json.obj [("sha", Json.str "t0"), ("url", Json.str "u0"), ("truncated", Json.bool false),
    ("tree", Json.arr [Json.obj [("path", Json.str "README.md"), ("mode", Json.str "100644"),
      ("type", Json.str "blob"), ("sha", Json.str "s0")]])]

/-- An oracle serving the two sample bodies. -/
def sampleOracle : NetworkOracle := ⟨some sampleRepoBody, some sampleTreeBody⟩

/-- An oracle whose metadata body has a `null` default branch. -/
def nullBranchOracle : NetworkOracle := ⟨some nullBranchBody, none⟩

/-- A tree entry whose path holds a newline character. -/
def entryWithNewline : TreeEntry := ⟨"a\nb", "100644", "blob", "s0", none, none⟩

/-- Two one-entry responses agreeing on every entry's `type` and `path` and
differing in the response's `sha`, `url` and `truncated` and in the entry's
`mode`, `sha`, `size` and `url`. -/
def respA : GitTreeResponse :=
  ⟨"shaA", "urlA", false, [⟨"src", "040000", "tree", "e1", none, none⟩]⟩

/-- The counterpart of `respA` for the noninterference witness. -/
def respB : GitTreeResponse :=
  ⟨"shaB", "urlB", true, [⟨"src", "100644", "tree", "e2", some 7, some "u"⟩]⟩

/-! ## Helper lemmas -/

/-- The renderer's left fold equals the accumulator followed by the ordered
concatenation of the entry lines. -/
theorem foldl_entryLine (tree : List TreeEntry) (acc : String) :
    tree.foldl (fun output entry => output ++ entryLine entry) acc
      = acc ++ concatLines tree := by
  induction tree generalizing acc with
  | nil => simp [concatLines]
  | cons entry rest ih => simp [concatLines, ih, String.append_assoc]

/-- The renderer is the ordered concatenation of the entry lines. -/
theorem format_tree_eq (tree : List TreeEntry) : format_tree tree = concatLines tree := by
  have h := foldl_entryLine tree ""
  simpa [format_tree] using h

/-- Line concatenation distributes over list append. -/
theorem concatLines_append (l₁ l₂ : List TreeEntry) :
    concatLines (l₁ ++ l₂) = concatLines l₁ ++ concatLines l₂ := by
  induction l₁ with
  | nil => simp [concatLines]
  | cons entry rest ih => simp [concatLines, ih, String.append_assoc]

/-- Newline counting distributes over string append. -/
theorem newlineCount_append (a b : String) :
    newlineCount (a ++ b) = newlineCount a + newlineCount b := by
  simp [newlineCount, String.data_append, List.count_append]

/-- The kind token never holds a newline. -/
theorem newlineCount_kindToken (t : String) : newlineCount (kindToken t) = 0 := by
  unfold kindToken
  split <;> rfl

/-- Each entry's line holds exactly one newline more than its path. -/
theorem newlineCount_entryLine (entry : TreeEntry) :
    newlineCount (entryLine entry) = newlineCount entry.path + 1 := by
  unfold entryLine
  rw [newlineCount_append, newlineCount_append, newlineCount_append,
    newlineCount_kindToken]
  have h1 : newlineCount " " = 0 := rfl
  have h2 : newlineCount "\n" = 1 := rfl
  omega

/-- A successful required string field is a string in the object. -/
theorem getStrField_sound (fields : List (String × Json)) (k s : String)
    (h : getStrField fields k = some s) : fields.lookup k = some (Json.str s) := by
  unfold getStrField at h
  split at h <;> simp_all

/-- A successful required boolean field is a boolean in the object. -/
theorem getBoolField_sound (fields : List (String × Json)) (k : String) (b : Bool)
    (h : getBoolField fields k = some b) : fields.lookup k = some (Json.bool b) := by
  unfold getBoolField at h
  split at h <;> simp_all

/-- A successful required array field is an array in the object. -/
theorem getArrField_sound (fields : List (String × Json)) (k : String) (elements : List Json)
    (h : getArrField fields k = some elements) :
    fields.lookup k = some (Json.arr elements) := by
  unfold getArrField at h
  split at h <;> simp_all

/-- A decoded tree entry came from an object carrying all four required
fields as strings, each copied unchanged into the entry. -/
theorem decodeTreeEntry_sound (j : Json) (entry : TreeEntry)
    (h : decodeTreeEntry j = some entry) :
    ∃ fields, j = Json.obj fields ∧
      fields.lookup "path" = some (Json.str entry.path) ∧
      fields.lookup "mode" = some (Json.str entry.mode) ∧
      fields.lookup "type" = some (Json.str entry.type_field) ∧
      fields.lookup "sha" = some (Json.str entry.sha) := by
  match j with
  | Json.obj fields =>
    refine ⟨fields, rfl, ?_⟩
    simp only [decodeTreeEntry, Option.bind_eq_some] at h
    obtain ⟨path, hp, mode, hm, ty, hty, sha, hs, size, hsz, url, hu, heq⟩ := h
    injection heq with heq
    subst heq
    exact ⟨getStrField_sound _ _ _ hp, getStrField_sound _ _ _ hm,
      getStrField_sound _ _ _ hty, getStrField_sound _ _ _ hs⟩
  | Json.null => simp [decodeTreeEntry] at h
  | Json.bool b => simp [decodeTreeEntry] at h
  | Json.num n => simp [decodeTreeEntry] at h
  | Json.str s => simp [decodeTreeEntry] at h
  | Json.arr elements => simp [decodeTreeEntry] at h

/-- A decoded tree response came from an object carrying `sha`, `url`,
`truncated` and `tree` with exactly the required shapes. -/
theorem decodeGitTreeResponse_sound (j : Json) (r : GitTreeResponse)
    (h : decodeGitTreeResponse j = some r) :
    ∃ fields, j = Json.obj fields ∧
      fields.lookup "sha" = some (Json.str r.sha) ∧
      fields.lookup "url" = some (Json.str r.url) ∧
      fields.lookup "truncated" = some (Json.bool r.truncated) ∧
      ∃ entries, fields.lookup "tree" = some (Json.arr entries) ∧
        entries.mapM decodeTreeEntry = some r.tree := by
  match j with
  | Json.obj fields =>
    refine ⟨fields, rfl, ?_⟩
    simp only [decodeGitTreeResponse, Option.bind_eq_some] at h
    obtain ⟨sha, hs, url, hu, truncated, ht, entries, he, tree, hm, heq⟩ := h
    injection heq with heq
    subst heq
    exact ⟨getStrField_sound _ _ _ hs, getStrField_sound _ _ _ hu,
      getBoolField_sound _ _ _ ht, entries, getArrField_sound _ _ _ he, hm⟩
  | Json.null => simp [decodeGitTreeResponse] at h
  | Json.bool b => simp [decodeGitTreeResponse] at h
  | Json.num n => simp [decodeGitTreeResponse] at h
  | Json.str s => simp [decodeGitTreeResponse] at h
  | Json.arr elements => simp [decodeGitTreeResponse] at h

/-- A decoded metadata value came from an object whose `default_branch` was
missing, `null`, or a string, mapped to `none`, `none`, or that string. -/
theorem decodeRepoInfo_sound (j : Json) (info : RepoInfo)
    (h : decodeRepoInfo j = some info) :
    ∃ fields, j = Json.obj fields ∧
      ((fields.lookup "default_branch" = none ∧ info.default_branch = none) ∨
       (fields.lookup "default_branch" = some Json.null ∧ info.default_branch = none) ∨
       (∃ s, fields.lookup "default_branch" = some (Json.str s) ∧
         info.default_branch = some s)) := by
  match j with
  | Json.obj fields =>
    refine ⟨fields, rfl, ?_⟩
    simp only [decodeRepoInfo] at h
    split at h
    · injection h with h
      subst h
      exact Or.inl ⟨by assumption, rfl⟩
    · injection h with h
      subst h
      exact Or.inr (Or.inl ⟨by assumption, rfl⟩)
    · injection h with h
      subst h
      exact Or.inr (Or.inr ⟨_, by assumption, rfl⟩)
    · exact absurd h (by simp)
  | Json.null => simp [decodeRepoInfo] at h
  | Json.bool b => simp [decodeRepoInfo] at h
  | Json.num n => simp [decodeRepoInfo] at h
  | Json.str s => simp [decodeRepoInfo] at h
  | Json.arr elements => simp [decodeRepoInfo] at h

/-- Entry sequences agreeing pointwise on kind and path render to the same
line concatenation. -/
theorem concatLines_congr (l₁ l₂ : List TreeEntry)
    (h : List.Forall₂ (fun a b => a.type_field = b.type_field ∧ a.path = b.path) l₁ l₂) :
    concatLines l₁ = concatLines l₂ := by
  induction h with
  | nil => rfl
  | cons hab _ ih =>
    rcases hab with ⟨ht, hp⟩
    show entryLine _ ++ _ = entryLine _ ++ _
    rw [ih]
    unfold entryLine
    rw [ht, hp]

/-! ## The claims -/

/-- C1 counterexample: on the input "a/", whose second segment is empty, the
parser succeeds with the empty name instead of failing as the claim states,
because `parse_repo_name` only counts the segments and never checks them for
emptiness. -/
theorem c1_counterexample :
    parse_repo_name "a/" = Except.ok ("a", "") ∧ splitOnChar '/' "a/" = ["a", ""] :=
  ⟨rfl, rfl⟩

/-- C1 (amended): the parser succeeds if and only if splitting on '/' yields
exactly two segments, empty or not; on success it returns the two segments
unchanged, and for zero or multiple separators it fails with the
malformed-identifier message. -/
theorem c1_parse_split_exact (s : String) :
    (∀ owner repo,
      parse_repo_name s = Except.ok (owner, repo) ↔ splitOnChar '/' s = [owner, repo]) ∧
    ((splitOnChar '/' s).length ≠ 2 →
      parse_repo_name s = Except.error malformedIdentifierMsg) := by
  constructor
  · intro owner repo
    unfold parse_repo_name
    rcases hl : splitOnChar '/' s with _ | ⟨a, _ | ⟨b, _ | ⟨c, t⟩⟩⟩ <;> simp_all
  · intro hlen
    unfold parse_repo_name
    rcases hl : splitOnChar '/' s with _ | ⟨a, _ | ⟨b, _ | ⟨c, t⟩⟩⟩ <;> simp_all

/-- C2: the renderer is exactly the ordered concatenation of one line per
entry — the kind token, one space, the path verbatim, a newline — with no
sorting, deduplication or filtering: it maps `[]` to the empty string, a
single entry to its line, and distributes over append, so line i of the
output is the line of input entry i. -/
theorem c2_format_tree_concat :
    (∀ tree : List TreeEntry, format_tree tree = concatLines tree) ∧
    (∀ l₁ l₂ : List TreeEntry, format_tree (l₁ ++ l₂) = format_tree l₁ ++ format_tree l₂) ∧
    (∀ entry : TreeEntry, format_tree [entry] = entryLine entry) ∧
    format_tree [] = "" := by
  refine ⟨format_tree_eq, ?_, ?_, rfl⟩
  · intro l₁ l₂
    rw [format_tree_eq, format_tree_eq, format_tree_eq, concatLines_append]
  · intro entry
    rw [format_tree_eq]
    show entryLine entry ++ "" = entryLine entry
    simp

/-- C3 counterexample: an entry whose path holds a newline yields two
newline-terminated lines for one input entry, so the output line count does
not equal the entry count for arbitrary paths. -/
theorem c3_counterexample :
    newlineCount (format_tree [entryWithNewline]) = 2 ∧ [entryWithNewline].length = 1 :=
  ⟨rfl, rfl⟩

/-- C3 (amended): the renderer's output holds one newline-terminated line per
entry plus one extra line break for every newline character inside an entry's
path; when no path holds a newline — kind strings never contribute, arbitrary
as they may be — the line count equals the entry count exactly. -/
theorem c3_line_count (tree : List TreeEntry) :
    newlineCount (format_tree tree)
        = tree.length + (tree.map fun entry => newlineCount entry.path).sum ∧
    ((∀ entry ∈ tree, newlineCount entry.path = 0) →
      newlineCount (format_tree tree) = tree.length) := by
  have main : newlineCount (format_tree tree)
      = tree.length + (tree.map fun entry => newlineCount entry.path).sum := by
    rw [format_tree_eq]
    induction tree with
    | nil => rfl
    | cons entry rest ih =>
      show newlineCount (entryLine entry ++ concatLines rest) = _
      rw [newlineCount_append, newlineCount_entryLine, ih]
      simp
      omega
  refine ⟨main, fun h => ?_⟩
  rw [main]
  have hz : (tree.map fun entry => newlineCount entry.path).sum = 0 := by
    apply List.sum_eq_zero
    intro x hx
    obtain ⟨entry, he, rfl⟩ := List.mem_map.mp hx
    exact h entry he
  omega

/-- C4: the entry-kind mapping is total on strings: "tree" maps to DIR,
"blob" to FILE, every other string to UNK, and every value it takes is one
of the three tokens. -/
theorem c4_kind_mapping (t : String) :
    kindToken "tree" = "DIR" ∧ kindToken "blob" = "FILE" ∧
    (t ≠ "tree" → t ≠ "blob" → kindToken t = "UNK") ∧
    (kindToken t = "DIR" ∨ kindToken t = "FILE" ∨ kindToken t = "UNK") := by
  refine ⟨rfl, rfl, ?_, ?_⟩
  · intro h1 h2
    unfold kindToken
    split <;> simp_all
  · unfold kindToken
    split <;> simp

/-- C5 counterexample: the same tree rendered in a run writing to standard
output carries one more trailing newline than in a run writing to a file,
because `println!` appends a newline where `write!` does not, so the two
texts are not byte-identical. -/
theorem c5_counterexample :
    writtenTexts (runMain ⟨"octocat/Hello-World", some "tok", none⟩ none sampleOracle).1
        = ["FILE README.md\n\n"] ∧
    writtenTexts (runMain ⟨"octocat/Hello-World", some "tok", some "out.txt"⟩ none sampleOracle).1
        = ["FILE README.md\n"] ∧
    ("FILE README.md\n\n" : String) ≠ "FILE README.md\n" := by
  refine ⟨rfl, rfl, ?_⟩
  decide

/-- C5 (amended): in any successful run, the file run writes exactly the
rendered text while the otherwise-identical standard-output run writes the
rendered text followed by one extra newline appended by `println!`. -/
theorem c5_output_sink (repoName : String) (tok envTok : Option String)
    (o : NetworkOracle) (p : String)
    (h : (runMain ⟨repoName, tok, none⟩ envTok o).2 = Except.ok ()) :
    ∃ text,
      writtenTexts (runMain ⟨repoName, tok, some p⟩ envTok o).1 = [text] ∧
      writtenTexts (runMain ⟨repoName, tok, none⟩ envTok o).1 = [text ++ "\n"] := by
  unfold runMain at h ⊢
  rcases h1 : resolveToken tok envTok with _ | t <;> simp [h1] at h ⊢
  rcases h2 : parse_repo_name repoName with e | ⟨owner, repo⟩ <;> simp [h2] at h ⊢
  rcases h3 : o.repoInfoBody with _ | body1 <;> simp [h3] at h ⊢
  rcases h4 : decodeRepoInfo body1 with _ | info <;> simp [h4] at h ⊢
  rcases h5 : info.default_branch with _ | branch <;> simp [h5] at h ⊢
  rcases h6 : o.treeBody with _ | body2 <;> simp [h6] at h ⊢
  rcases h7 : decodeGitTreeResponse body2 with _ | resp <;> simp [h7] at h ⊢
  exact ⟨format_tree resp.tree, by simp [writtenTexts], by simp [writtenTexts]⟩

/-- C5 witness: the amended statement at the sample run. -/
theorem c5_witness :
    ∃ text,
      writtenTexts (runMain ⟨"octocat/Hello-World", some "tok", some "out.txt"⟩
          none sampleOracle).1 = [text] ∧
      writtenTexts (runMain ⟨"octocat/Hello-World", some "tok", none⟩
          none sampleOracle).1 = [text ++ "\n"] :=
  c5_output_sink "octocat/Hello-World" (some "tok") none sampleOracle "out.txt" rfl

/-- C6: when the metadata body decodes to a value with no default branch, the
run fails with the missing-default-branch error after exactly one network
request — the metadata one — and nothing is ever written: the tree fetch,
rendering and writing stages are never reached. -/
theorem c6_missing_default_branch (args : Args) (envTok : Option String)
    (o : NetworkOracle) (body : Json)
    (htok : ∃ t, resolveToken args.token envTok = some t)
    (hparse : ∃ owner repo, parse_repo_name args.repo_name = Except.ok (owner, repo))
    (hbody : o.repoInfoBody = some body)
    (hdec : decodeRepoInfo body = some ⟨none⟩) :
    (runMain args envTok o).2 = Except.error (RunError.missingDefaultBranch defaultBranchMsg) ∧
    (∃ u, (runMain args envTok o).1 = [Event.netRequest u]) ∧
    writtenTexts (runMain args envTok o).1 = [] := by
  obtain ⟨t, ht⟩ := htok
  obtain ⟨owner, repo, hp⟩ := hparse
  unfold runMain
  simp [ht, hp, hbody, hdec, writtenTexts]

/-- C6 witness: the sample run against a metadata body whose default branch
is `null`. -/
theorem c6_witness :
    (runMain ⟨"octocat/Hello-World", some "tok", none⟩ none nullBranchOracle).2
        = Except.error (RunError.missingDefaultBranch defaultBranchMsg) ∧
    (∃ u, (runMain ⟨"octocat/Hello-World", some "tok", none⟩ none nullBranchOracle).1
        = [Event.netRequest u]) ∧
    writtenTexts (runMain ⟨"octocat/Hello-World", some "tok", none⟩ none nullBranchOracle).1
        = [] :=
  c6_missing_default_branch ⟨"octocat/Hello-World", some "tok", none⟩ none
    nullBranchOracle nullBranchBody ⟨"tok", rfl⟩ ⟨"octocat", "Hello-World", rfl⟩ rfl rfl

/-- C7: credential resolution takes the explicit flag first, then the
`GITHUB_TOKEN` environment value (`.env`-loaded values included); when both
are absent the run fails with the missing-credential error before any event
— network calls included — and the message names all three ways to supply
the token: the argument, the environment variable, and a `.env` file. -/
theorem c7_credential_resolution (flag envTok : Option String) (repoName : String)
    (o : NetworkOracle) :
    (∀ t, flag = some t → resolveToken flag envTok = some t) ∧
    (flag = none → resolveToken flag envTok = envTok) ∧
    (flag = none → envTok = none →
      runMain ⟨repoName, flag, none⟩ envTok o
        = ([], Except.error (RunError.missingCredential tokenExpectMsg))) ∧
    (∃ a b, tokenExpectMsg = a ++ "argument" ++ b) ∧
    (∃ a b, tokenExpectMsg = a ++ "GITHUB_TOKEN" ++ b) ∧
    (∃ a b, tokenExpectMsg = a ++ ".env" ++ b) := by
  refine ⟨?_, ?_, ?_,
    ⟨"GitHub token not provided. Set it as an ",
     ", in the GITHUB_TOKEN environment variable, or in a .env file as GITHUB_TOKEN", rfl⟩,
    ⟨"GitHub token not provided. Set it as an argument, in the ",
     " environment variable, or in a .env file as GITHUB_TOKEN", rfl⟩,
    ⟨"GitHub token not provided. Set it as an argument, in the GITHUB_TOKEN environment variable, or in a ",
     " file as GITHUB_TOKEN", rfl⟩⟩
  · rintro t rfl
    rfl
  · rintro rfl
    cases envTok <;> rfl
  · rintro rfl rfl
    rfl

/-- C8: with a token resolved, an identifier the parser rejects fails the
run with the malformed-identifier error and an empty event list, so the
failed parse precedes and gates both API requests. -/
theorem c8_parse_gates_network (args : Args) (envTok : Option String)
    (o : NetworkOracle) (msg : String)
    (htok : ∃ t, resolveToken args.token envTok = some t)
    (hparse : parse_repo_name args.repo_name = Except.error msg) :
    runMain args envTok o = ([], Except.error (RunError.malformedIdentifier msg)) := by
  obtain ⟨t, ht⟩ := htok
  unfold runMain
  simp [ht, hparse]

/-- C8 witness: the spec's scenario 4 input "invalid-no-slash". -/
theorem c8_witness :
    runMain ⟨"invalid-no-slash", some "tok", none⟩ none sampleOracle
      = ([], Except.error (RunError.malformedIdentifier malformedIdentifierMsg)) :=
  c8_parse_gates_network ⟨"invalid-no-slash", some "tok", none⟩ none sampleOracle
    malformedIdentifierMsg ⟨"tok", rfl⟩ rfl

/-- C9: both response decoders are strict about the declared shapes: any
decoded tree response came from an object carrying `sha`, `url`, `truncated`
and `tree` with exactly the declared types and every entry carrying `path`,
`mode`, `type` and `sha` as strings; any decoded metadata value came from an
object whose `default_branch` was missing, `null` or a string; an object
missing the required `sha` never decodes; a run whose metadata body fails to
decode stops with the decode-failure error; and a run that resolves a default
branch but whose tree body fails to decode likewise stops with the
decode-failure error. -/
theorem c9_strict_decoding :
    (∀ j r, decodeGitTreeResponse j = some r → ∃ fields, j = Json.obj fields ∧
      fields.lookup "sha" = some (Json.str r.sha) ∧
      fields.lookup "url" = some (Json.str r.url) ∧
      fields.lookup "truncated" = some (Json.bool r.truncated) ∧
      ∃ entries, fields.lookup "tree" = some (Json.arr entries) ∧
        entries.mapM decodeTreeEntry = some r.tree) ∧
    (∀ j entry, decodeTreeEntry j = some entry → ∃ fields, j = Json.obj fields ∧
      fields.lookup "path" = some (Json.str entry.path) ∧
      fields.lookup "mode" = some (Json.str entry.mode) ∧
      fields.lookup "type" = some (Json.str entry.type_field) ∧
      fields.lookup "sha" = some (Json.str entry.sha)) ∧
    (∀ j info, decodeRepoInfo j = some info → ∃ fields, j = Json.obj fields ∧
      ((fields.lookup "default_branch" = none ∧ info.default_branch = none) ∨
       (fields.lookup "default_branch" = some Json.null ∧ info.default_branch = none) ∨
       (∃ s, fields.lookup "default_branch" = some (Json.str s) ∧
         info.default_branch = some s))) ∧
    (∀ fields, fields.lookup "sha" = none →
      decodeGitTreeResponse (Json.obj fields) = none) ∧
    (∀ args envTok o body, (∃ t, resolveToken args.token envTok = some t) →
      (∃ owner repo, parse_repo_name args.repo_name = Except.ok (owner, repo)) →
      o.repoInfoBody = some body → decodeRepoInfo body = none →
      (runMain args envTok o).2 = Except.error RunError.decodeFailed) ∧
    (∀ args envTok o body1 body2 branch,
      (∃ t, resolveToken args.token envTok = some t) →
      (∃ owner repo, parse_repo_name args.repo_name = Except.ok (owner, repo)) →
      o.repoInfoBody = some body1 → decodeRepoInfo body1 = some ⟨some branch⟩ →
      o.treeBody = some body2 → decodeGitTreeResponse body2 = none →
      (runMain args envTok o).2 = Except.error RunError.decodeFailed) := by
  refine ⟨decodeGitTreeResponse_sound, decodeTreeEntry_sound, decodeRepoInfo_sound, ?_, ?_, ?_⟩
  · intro fields hnone
    simp [decodeGitTreeResponse, getStrField, hnone]
  · intro args envTok o body htok hparse hbody hdec
    obtain ⟨t, ht⟩ := htok
    obtain ⟨owner, repo, hp⟩ := hparse
    unfold runMain
    simp [ht, hp, hbody, hdec]
  · intro args envTok o body1 body2 branch htok hparse hbody1 hdec1 hbody2 hdec2
    obtain ⟨t, ht⟩ := htok
    obtain ⟨owner, repo, hp⟩ := hparse
    unfold runMain
    simp [ht, hp, hbody1, hdec1, hbody2, hdec2]

/-- C10: the rendered output depends only on each entry's kind string and
path: two responses whose trees agree pointwise on `type` and `path` render
byte-identically, whatever their entries' `mode`, `sha`, `size` and `url` and
the responses' top-level `sha`, `url` and `truncated`. -/
theorem c10_noninterference (r₁ r₂ : GitTreeResponse)
    (h : List.Forall₂ (fun a b => a.type_field = b.type_field ∧ a.path = b.path)
      r₁.tree r₂.tree) :
    format_tree r₁.tree = format_tree r₂.tree := by
  rw [format_tree_eq, format_tree_eq]
  exact concatLines_congr r₁.tree r₂.tree h

/-- C10 witness: two sample responses differing in every field the claim
names as irrelevant render to the same text. -/
theorem c10_witness : format_tree respA.tree = format_tree respB.tree :=
  c10_noninterference respA respB (List.Forall₂.cons ⟨rfl, rfl⟩ List.Forall₂.nil)
